import Mathlib

/-!
Shallow embedding of `src/service/src/media_control.rs` (kAirPods media-control
module).  The module pauses playing MPRIS media players over D-Bus, records the
players it paused in the process-wide `PAUSED_PLAYERS` list, resumes exactly the
recorded players, and offers a stateless play/pause toggle.

The external D-Bus world is modelled by `BusEnv`: the outcome of opening the
session connection, creating the DBus proxy, listing names, the per-player
`is_player_playing` probe (`Option Bool`: `none` models an `Err` result), and
the per-player method dispatch (`Bool`: `true` models an `Ok` result of
`send_mpris_command_to_player` / `Connection::call_method`).  Each public
operation becomes a pure function from a `BusEnv` and the current
`PAUSED_PLAYERS` contents to the new contents plus a trace of the dispatched
(method, player) commands.
-/

namespace MediaControl

/-- Outcomes of the external D-Bus calls made during one operation.
`probe s` models `is_player_playing(s)` (`none` = `Err`), `dispatch m s`
models whether the method call `m` against service `s` returns `Ok`. -/
structure BusEnv where
  connectOk : Bool
  proxyOk : Bool
  listNamesOk : Bool
  names : List String
  probe : String → Option Bool
  dispatch : String → String → Bool

/-- Literal MPRIS bus-name namespace from the source:
`name.starts_with("org.mpris.MediaPlayer2.")`. -/
def mprisNamespace : String := "org.mpris.MediaPlayer2."

/-- Rust `str::starts_with`, on the character sequence of the string. -/
def startsWithChars (s p : String) : Bool := s.data.take p.data.length == p.data

/-- Connection / proxy / name-listing phase of `send_pause` (lines 51-77) and
`send_mpris_command` (lines 236-246): any of the three failures aborts with an
early return; otherwise the name list is filtered to the MPRIS namespace. -/
def discoverPlayers (env : BusEnv) : Option (List String) :=
  if env.connectOk then
    if env.proxyOk then
      if env.listNamesOk then
        some (env.names.filter (fun n => startsWithChars n mprisNamespace))
      else none
    else none
  else none

/-- Per-player loop of `send_pause` (lines 89-110): probe each service; on
`Ok(true)` dispatch `Pause` and record the service in the working list only if
the dispatch succeeded; on `Ok(false)` or `Err(_)` skip the service.  Returns
(working list, trace of dispatched (method, service) commands). -/
def pauseLoop (env : BusEnv) : List String → List String × List (String × String)
  | [] => ([], [])
  | s :: rest =>
    let r := pauseLoop env rest
    match env.probe s with
    | some true =>
      if env.dispatch "Pause" s then (s :: r.1, ("Pause", s) :: r.2)
      else (r.1, ("Pause", s) :: r.2)
    | some false => r
    | none => r

/-- Function `send_pause` (lines 49-119): discover players (abort, state
unchanged, on connection/proxy/listing failure or when no MPRIS service is
registered), run the per-player loop, and overwrite `PAUSED_PLAYERS` with the
working list only when that list is non-empty (line 117); when the working
list is empty the source only logs and leaves the stored list untouched. -/
def sendPause (env : BusEnv) (st : List String) : List String × List (String × String) :=
  match discoverPlayers env with
  | none => (st, [])
  | some [] => (st, [])
  | some (s0 :: rest) =>
    let r := pauseLoop env (s0 :: rest)
    if r.1.isEmpty then (st, r.2) else (r.1, r.2)

/-- Per-player loop of `send_play` (lines 27-39): dispatch `Play` to every
recorded player, counting successes; failures are logged only. Returns
(trace of dispatched commands, success count). -/
def playLoop (env : BusEnv) : List String → List (String × String) × Nat
  | [] => ([], 0)
  | p :: rest =>
    let r := playLoop env rest
    if env.dispatch "Play" p then (("Play", p) :: r.1, r.2 + 1)
    else (("Play", p) :: r.1, r.2)

/-- Function `send_play` (lines 15-45): clone `PAUSED_PLAYERS`; if empty,
return with no dispatch; otherwise dispatch `Play` to every recorded player
and clear the stored list unconditionally (line 44). -/
def sendPlay (env : BusEnv) (st : List String) :
    List String × List (String × String) × Nat :=
  if st.isEmpty then (st, [], 0)
  else ([], playLoop env st)

/-- Expression `is_player_playing(s).await.unwrap_or(false)` used by
`send_mpris_command` (lines 262 and 321). -/
def probeOrFalse (env : BusEnv) (s : String) : Bool := (env.probe s).getD false

/-- Fallback loop of `send_mpris_command` (lines 313-344): try every
discovered service except the preferred one, in directory order, stopping at
the first successful dispatch.  Returns (attempted services, `some` of the
successful (service, was-playing) pair or `none` when all attempts failed). -/
def toggleFallback (env : BusEnv) (method preferred : String) :
    List String → List String × Option (String × Bool)
  | [] => ([], none)
  | s :: rest =>
    if s = preferred then toggleFallback env method preferred rest
    else if env.dispatch method s then ([s], some (s, probeOrFalse env s))
    else
      let r := toggleFallback env method preferred rest
      (s :: r.1, r.2)

/-- Function `send_mpris_command` (lines 234-354): discover players (error on
connection/proxy/listing failure, `Ok(None)` when none found); pick the first
service probing as playing, falling back to the first service; dispatch the
method to it; on failure run the fallback loop over the remaining services.
Returns (result, trace of dispatched (method, service) commands). -/
def sendMprisCommand (env : BusEnv) (method : String) :
    Except Unit (Option (String × Bool)) × List (String × String) :=
  match discoverPlayers env with
  | none => (Except.error (), [])
  | some [] => (Except.ok none, [])
  | some (s0 :: rest) =>
    let all := s0 :: rest
    let active := all.find? (fun s => probeOrFalse env s)
    let preferred := active.getD s0
    if env.dispatch method preferred then
      (Except.ok (some (preferred, active.isSome)), [(method, preferred)])
    else
      let r := toggleFallback env method preferred all
      match r.2 with
      | some res => (Except.ok (some res), (method, preferred) :: r.1.map (fun s => (method, s)))
      | none => (Except.error (), (method, preferred) :: r.1.map (fun s => (method, s)))

/-- Function `send_play_pause` (lines 169-175): run `send_mpris_command
("PlayPause")` and absorb its result (`Err` is logged, never propagated);
`PAUSED_PLAYERS` is neither read nor written. -/
def sendPlayPause (env : BusEnv) (st : List String) :
    List String × List (String × String) :=
  (st, (sendMprisCommand env "PlayPause").2)

/-- Runtime shape of a decoded `zbus::zvariant::Value`: a string, or any
other variant shape. -/
inductive ZValue
  | str (s : String)
  | other
deriving DecidableEq

/-- Outcomes of the two deserialisations a reply body offers: the direct
`String` decode and the generic `zvariant::Value` decode (`none` = `Err`). -/
structure ReplyBody where
  asString : Option String
  asValue : Option ZValue
deriving DecidableEq

/-- Conversion `String::try_from(variant)`: succeeds exactly on the string
variant. -/
def stringTryFrom : ZValue → Option String
  | ZValue.str s => some s
  | ZValue.other => none

/-- Decode step of `is_playing` (lines 150-165): try the direct `String`
decode; if it fails decode a `Value`, taking the inner string of a `Str`
variant, returning `Ok(false)` for any other variant, and propagating a
failed `Value` decode as `Err` (`none`).  Compare the string to `"Playing"`. -/
def isPlayingDecode (body : ReplyBody) : Option Bool :=
  match body.asString with
  | some s => some (s == "Playing")
  | none =>
    match body.asValue with
    | some (ZValue.str s) => some (s == "Playing")
    | some ZValue.other => some false
    | none => none

/-- Decode step of `is_player_playing` (lines 194-207): decode a `Value`
directly (a failure propagates as `Err`), take the inner string of a `Str`
variant, otherwise attempt `String::try_from` and return `Ok(false)` when it
fails.  Compare the string to `"Playing"`. -/
def isPlayerPlayingDecode (body : ReplyBody) : Option Bool :=
  match body.asValue with
  | none => none
  | some (ZValue.str s) => some (s == "Playing")
  | some v =>
    match stringTryFrom v with
    | some s => some (s == "Playing")
    | none => some false

/-- Operations of the module that touch or could touch `PAUSED_PLAYERS`. -/
inductive MediaOp
  | pause
  | play
  | toggle
deriving DecidableEq

/-- Effect of one public operation on the stored `PAUSED_PLAYERS` list. -/
def stepOp (e : MediaOp × BusEnv) (st : List String) : List String :=
  match e.1 with
  | MediaOp.pause => (sendPause e.2 st).1
  | MediaOp.play => (sendPlay e.2 st).1
  | MediaOp.toggle => (sendPlayPause e.2 st).1

/-- Stored `PAUSED_PLAYERS` list after a sequence of public operations. -/
def runOps : List (MediaOp × BusEnv) → List String → List String
  | [], st => st
  | e :: evs, st => runOps evs (stepOp e st)

/-- Modelled from the spec: the Toggle fallback "trying PlayPause against each
remaining discovered player in turn until one succeeds or all are exhausted",
rendered as the sequence of services a dispatch is attempted against. -/
def attemptsUntilSuccess (env : BusEnv) (method : String) : List String → List String
  | [] => []
  | s :: rest =>
    if env.dispatch method s then [s] else s :: attemptsUntilSuccess env method rest

/-- Modelled from the spec: the full Toggle attempt sequence — "discover the
single most-plausible active player (first one found Playing by scanning in
directory order; if none playing, fall back to the first discovered player at
all) and dispatch PlayPause to it; on dispatch failure, fall back to trying
PlayPause against each remaining discovered player in turn until one succeeds
or all are exhausted". -/
def toggleSpecAttempts (env : BusEnv) (method : String) : List String → List String
  | [] => []
  | s0 :: rest =>
    let preferred := ((s0 :: rest).find? (fun s => probeOrFalse env s)).getD s0
    if env.dispatch method preferred then [preferred]
    else
      preferred :: attemptsUntilSuccess env method
        ((s0 :: rest).filter (fun s => decide (s ≠ preferred)))

/-- Bus with two registered MPRIS players (and one unrelated service), both
probing as Playing, every dispatch succeeding. -/
def envAllPlaying : BusEnv :=
  { connectOk := true, proxyOk := true, listNamesOk := true
    names := ["org.mpris.MediaPlayer2.spotify", "other.service", "org.mpris.MediaPlayer2.vlc"]
    probe := fun _ => some true
    dispatch := fun _ _ => true }

/-- Bus with one registered MPRIS player that probes as not playing. -/
def envNonePlaying : BusEnv :=
  { connectOk := true, proxyOk := true, listNamesOk := true
    names := ["org.mpris.MediaPlayer2.spotify"]
    probe := fun _ => some false
    dispatch := fun _ _ => true }

/-- Bus whose session connection cannot be opened. -/
def envDown : BusEnv :=
  { connectOk := false, proxyOk := true, listNamesOk := true
    names := []
    probe := fun _ => none
    dispatch := fun _ _ => false }

/-- Bus with players a (Playing) and b (not playing); every dispatch succeeds. -/
def envMixed : BusEnv :=
  { connectOk := true, proxyOk := true, listNamesOk := true
    names := ["org.mpris.MediaPlayer2.a", "org.mpris.MediaPlayer2.b"]
    probe := fun s => some (s == "org.mpris.MediaPlayer2.a")
    dispatch := fun _ _ => true }

/-- Bus with players a and c both Playing, where dispatching to c fails. -/
def envPartial : BusEnv :=
  { connectOk := true, proxyOk := true, listNamesOk := true
    names := ["org.mpris.MediaPlayer2.a", "org.mpris.MediaPlayer2.c"]
    probe := fun _ => some true
    dispatch := fun _ s => !(s == "org.mpris.MediaPlayer2.c") }

lemma pauseLoop_fst (env : BusEnv) (l : List String) :
    (pauseLoop env l).1 =
      l.filter (fun s => decide (env.probe s = some true) && env.dispatch "Pause" s) := by
  induction l with
  | nil => rfl
  | cons s rest ih =>
    cases hp : env.probe s with
    | none => simp [pauseLoop, hp, ih, List.filter_cons]
    | some b =>
      cases b with
      | false => simp [pauseLoop, hp, ih, List.filter_cons]
      | true =>
        cases hd : env.dispatch "Pause" s with
        | false => simp [pauseLoop, hp, hd, ih, List.filter_cons]
        | true => simp [pauseLoop, hp, hd, ih, List.filter_cons]

lemma pauseLoop_snd (env : BusEnv) (l : List String) :
    (pauseLoop env l).2 =
      (l.filter (fun s => decide (env.probe s = some true))).map (fun s => ("Pause", s)) := by
  induction l with
  | nil => rfl
  | cons s rest ih =>
    cases hp : env.probe s with
    | none => simp [pauseLoop, hp, ih, List.filter_cons]
    | some b =>
      cases b with
      | false => simp [pauseLoop, hp, ih, List.filter_cons]
      | true =>
        cases hd : env.dispatch "Pause" s with
        | false => simp [pauseLoop, hp, hd, ih, List.filter_cons]
        | true => simp [pauseLoop, hp, hd, ih, List.filter_cons]

lemma mem_pauseLoop_fst {env : BusEnv} {l : List String} {p : String}
    (h : p ∈ (pauseLoop env l).1) :
    p ∈ l ∧ env.probe p = some true ∧ env.dispatch "Pause" p = true := by
  rw [pauseLoop_fst] at h
  obtain ⟨hmem, hpred⟩ := List.mem_filter.mp h
  obtain ⟨h1, h2⟩ := Bool.and_eq_true_iff.mp hpred
  exact ⟨hmem, of_decide_eq_true h1, h2⟩

lemma pause_trace_mem_iff (env : BusEnv) (l : List String) (s : String) :
    ("Pause", s) ∈ (pauseLoop env l).2 ↔ s ∈ l ∧ env.probe s = some true := by
  rw [pauseLoop_snd]
  constructor
  · intro h
    obtain ⟨x, hx, heq⟩ := List.mem_map.mp h
    obtain ⟨hx1, hx2⟩ := List.mem_filter.mp hx
    obtain ⟨-, rfl⟩ := Prod.mk.injEq .. ▸ heq
    exact ⟨hx1, of_decide_eq_true hx2⟩
  · intro ⟨h1, h2⟩
    exact List.mem_map.mpr ⟨s, List.mem_filter.mpr ⟨h1, decide_eq_true h2⟩, rfl⟩

lemma discoverPlayers_eq_some {env : BusEnv} {services : List String}
    (h : discoverPlayers env = some services) :
    services = env.names.filter (fun n => startsWithChars n mprisNamespace) := by
  unfold discoverPlayers at h
  split at h
  · split at h
    · split at h
      · exact (Option.some_inj.mp h).symm
      · exact Option.noConfusion h
    · exact Option.noConfusion h
  · exact Option.noConfusion h

lemma sendPause_snd {env : BusEnv} {st services : List String}
    (h : discoverPlayers env = some services) :
    (sendPause env st).2 = (pauseLoop env services).2 := by
  cases services with
  | nil => simp [sendPause, h, pauseLoop]
  | cons s0 rest =>
    simp only [sendPause, h]
    split <;> rfl

lemma playLoop_fst (env : BusEnv) (l : List String) :
    (playLoop env l).1 = l.map (fun p => ("Play", p)) := by
  induction l with
  | nil => rfl
  | cons p rest ih => cases hd : env.dispatch "Play" p <;> simp [playLoop, hd, ih]

lemma toggleFallback_fst (env : BusEnv) (method preferred : String) (l : List String) :
    (toggleFallback env method preferred l).1 =
      attemptsUntilSuccess env method (l.filter (fun s => decide (s ≠ preferred))) := by
  induction l with
  | nil => rfl
  | cons s rest ih =>
    by_cases hsp : s = preferred
    · subst hsp
      simp [toggleFallback, List.filter_cons, ih]
    · cases hd : env.dispatch method s <;>
        simp [toggleFallback, attemptsUntilSuccess, hsp, hd, ih, List.filter_cons]

lemma toggleFallback_none_iff (env : BusEnv) (method preferred : String) (l : List String) :
    (toggleFallback env method preferred l).2 = none ↔
      ∀ s ∈ l, s ≠ preferred → env.dispatch method s = false := by
  induction l with
  | nil => simp [toggleFallback]
  | cons s rest ih =>
    by_cases hsp : s = preferred
    · subst hsp
      rw [toggleFallback, if_pos rfl, ih]
      constructor
      · intro hall x hx hne
        rcases List.mem_cons.mp hx with rfl | hx
        · exact absurd rfl hne
        · exact hall x hx hne
      · intro hall x hx hne
        exact hall x (List.mem_cons_of_mem _ hx) hne
    · cases hd : env.dispatch method s
      · simp only [toggleFallback, if_neg hsp, hd, if_false, List.mem_cons,
          Bool.false_eq_true, ih]
        constructor
        · intro hall x hx hne
          rcases hx with rfl | hx
          · exact hd
          · exact hall x hx hne
        · intro hall x hx hne
          exact hall x (Or.inr hx) hne
      · simp only [toggleFallback, if_neg hsp, hd, if_true]
        constructor
        · intro h
          exact Option.noConfusion h
        · intro hall
          exact absurd hd (by rw [hall s (List.mem_cons_self s rest) hsp]; simp)

lemma toggleFallback_some {env : BusEnv} {method preferred : String} {l : List String}
    {res : String × Bool} (h : (toggleFallback env method preferred l).2 = some res) :
    res.1 ∈ l ∧ res.1 ≠ preferred ∧ env.dispatch method res.1 = true := by
  induction l with
  | nil => exact Option.noConfusion h
  | cons s rest ih =>
    by_cases hsp : s = preferred
    · subst hsp
      rw [toggleFallback, if_pos rfl] at h
      obtain ⟨h1, h2, h3⟩ := ih h
      exact ⟨List.mem_cons_of_mem _ h1, h2, h3⟩
    · cases hd : env.dispatch method s
      · rw [toggleFallback, if_neg hsp, hd] at h
        simp only [Bool.false_eq_true, if_false] at h
        obtain ⟨h1, h2, h3⟩ := ih h
        exact ⟨List.mem_cons_of_mem _ h1, h2, h3⟩
      · rw [toggleFallback, if_neg hsp, hd] at h
        simp only [if_true] at h
        obtain rfl := Option.some_inj.mp h |>.symm
        exact ⟨List.mem_cons_self s rest, hsp, hd⟩

lemma preferredOf_mem (env : BusEnv) (s0 : String) (rest : List String) :
    ((s0 :: rest).find? (fun s => probeOrFalse env s)).getD s0 ∈ s0 :: rest := by
  cases hf : (s0 :: rest).find? (fun s => probeOrFalse env s) with
  | none => exact List.mem_cons_self s0 rest
  | some x =>
    simp only [Option.getD_some]
    exact List.mem_of_find?_eq_some hf

lemma mem_sendPause_fst {env : BusEnv} {st : List String} {p : String}
    (h : p ∈ (sendPause env st).1) :
    p ∈ st ∨ ∃ services, discoverPlayers env = some services ∧
      p ∈ (pauseLoop env services).1 := by
  unfold sendPause at h
  cases hd : discoverPlayers env with
  | none => rw [hd] at h; exact Or.inl h
  | some services =>
    rw [hd] at h
    cases services with
    | nil => exact Or.inl h
    | cons s0 rest =>
      simp only at h
      by_cases hW : (pauseLoop env (s0 :: rest)).1.isEmpty
      · rw [if_pos hW] at h; exact Or.inl h
      · rw [if_neg hW] at h
        exact Or.inr ⟨s0 :: rest, rfl, h⟩

lemma mem_stepOp {e : MediaOp × BusEnv} {st : List String} {p : String}
    (h : p ∈ stepOp e st) :
    p ∈ st ∨ (e.1 = MediaOp.pause ∧ ∃ services, discoverPlayers e.2 = some services ∧
      p ∈ (pauseLoop e.2 services).1) := by
  obtain ⟨op, env⟩ := e
  cases op with
  | pause =>
    rcases mem_sendPause_fst h with h' | h'
    · exact Or.inl h'
    · exact Or.inr ⟨rfl, h'⟩
  | play =>
    unfold stepOp sendPlay at h
    by_cases hE : st.isEmpty
    · rw [if_pos hE] at h; exact Or.inl h
    · rw [if_neg hE] at h; exact absurd h (List.not_mem_nil p)
  | toggle => exact Or.inl h

lemma runOps_mem :
    ∀ (evs : List (MediaOp × BusEnv)) (st : List String) (p : String),
      p ∈ runOps evs st →
      p ∈ st ∨ ∃ env services, (MediaOp.pause, env) ∈ evs ∧
        discoverPlayers env = some services ∧ p ∈ (pauseLoop env services).1 := by
  intro evs
  induction evs with
  | nil => exact fun st p h => Or.inl h
  | cons e evs ih =>
    intro st p h
    rcases ih (stepOp e st) p h with h' | ⟨env, services, hmem, hdisc, hp⟩
    · rcases mem_stepOp h' with h'' | ⟨hop, services, hdisc, hp⟩
      · exact Or.inl h''
      · refine Or.inr ⟨e.2, services, ?_, hdisc, hp⟩
        have he : e = (MediaOp.pause, e.2) := Prod.ext hop rfl
        rw [← he]
        exact List.mem_cons_self e evs
    · exact Or.inr ⟨env, services, List.mem_cons_of_mem _ hmem, hdisc, hp⟩

lemma sendPause_fst_of_cons {env : BusEnv} {st : List String} {s0 : String}
    {rest : List String} (h : discoverPlayers env = some (s0 :: rest)) :
    (sendPause env st).1 =
      if (pauseLoop env (s0 :: rest)).1.isEmpty then st
      else (pauseLoop env (s0 :: rest)).1 := by
  simp only [sendPause, h]
  by_cases hE : (pauseLoop env (s0 :: rest)).1.isEmpty <;> simp [hE]

/-- C1 counterexample: with one discovered player that probes as not playing
(the per-player phase is reached and the working list is empty), a previously
stored Paused-Set survives `send_pause` — it is not cleared to empty as the
claim states. -/
theorem pause_empty_working_list_retains_state :
    discoverPlayers envNonePlaying = some ["org.mpris.MediaPlayer2.spotify"] ∧
    (pauseLoop envNonePlaying ["org.mpris.MediaPlayer2.spotify"]).1 = [] ∧
    (sendPause envNonePlaying ["org.mpris.MediaPlayer2.vlc"]).1 =
      ["org.mpris.MediaPlayer2.vlc"] ∧
    (sendPause envNonePlaying ["org.mpris.MediaPlayer2.vlc"]).1 ≠ [] := by
  refine ⟨by decide, by decide, by decide, by decide⟩

/-- C1 (amended): after every `send_pause` that reaches the per-player phase,
a non-empty working list atomically replaces (overwrites, does not merge with)
the prior Paused-Set, and an empty working list leaves the Paused-Set
unchanged (prior contents are retained, not cleared). -/
theorem pause_overwrites_or_retains :
    ∀ (env : BusEnv) (st services : List String),
      discoverPlayers env = some services → services ≠ [] →
      ((pauseLoop env services).1 ≠ [] →
        (sendPause env st).1 = (pauseLoop env services).1) ∧
      ((pauseLoop env services).1 = [] → (sendPause env st).1 = st) := by
  intro env st services hdisc hne
  obtain ⟨s0, rest, rfl⟩ := List.exists_cons_of_ne_nil hne
  rw [sendPause_fst_of_cons hdisc]
  constructor
  · intro hW
    rw [if_neg ?_]
    intro hE
    exact hW (List.isEmpty_iff.mp hE)
  · intro hW
    rw [if_pos (List.isEmpty_iff.mpr hW)]

/-- Witness for the amended C1: a pause with a non-empty working list
overwrites the previously stored Paused-Set with exactly that working list. -/
theorem pause_overwrites_or_retains_witness :
    (sendPause envAllPlaying ["org.mpris.MediaPlayer2.old"]).1 =
      (pauseLoop envAllPlaying
        ["org.mpris.MediaPlayer2.spotify", "org.mpris.MediaPlayer2.vlc"]).1 :=
  (pause_overwrites_or_retains envAllPlaying ["org.mpris.MediaPlayer2.old"]
    ["org.mpris.MediaPlayer2.spotify", "org.mpris.MediaPlayer2.vlc"]
    (by decide) (by decide)).1 (by decide)

/-- C2: `send_play` on an empty Paused-Set dispatches nothing and changes
nothing; on a non-empty Paused-Set it dispatches `Play` exactly once to each
recorded identity in recorded order, and clears the set regardless of the
individual dispatch outcomes (the conclusion holds for every `dispatch`). -/
theorem resume_replays_recorded_players :
    ∀ (env : BusEnv) (st : List String),
      (st = [] → sendPlay env st = (st, [], 0)) ∧
      (st ≠ [] → (sendPlay env st).1 = [] ∧
        (sendPlay env st).2.1 = st.map (fun p => ("Play", p))) := by
  intro env st
  constructor
  · intro h; subst h; rfl
  · intro h
    obtain ⟨p, rest, rfl⟩ := List.exists_cons_of_ne_nil h
    exact ⟨by simp [sendPlay], by simp [sendPlay, playLoop_fst]⟩

/-- Witness for C2: a resume with one recorded player clears the set and
dispatches Play to exactly that player. -/
theorem resume_replays_recorded_players_witness :
    (sendPlay envAllPlaying ["org.mpris.MediaPlayer2.spotify"]).1 = [] ∧
    (sendPlay envAllPlaying ["org.mpris.MediaPlayer2.spotify"]).2.1 =
      ["org.mpris.MediaPlayer2.spotify"].map (fun p => ("Play", p)) :=
  (resume_replays_recorded_players envAllPlaying
    ["org.mpris.MediaPlayer2.spotify"]).2 (by decide)

/-- C3: during a pause, a `Pause` command is dispatched to a player iff it was
discovered and its probe returned Playing; a player not probed as Playing
(including a failed probe) is never dispatched to and never enters the
working list recorded as the Paused-Set. -/
theorem pause_dispatch_only_playing :
    ∀ (env : BusEnv) (st services : List String) (s : String),
      discoverPlayers env = some services →
      (("Pause", s) ∈ (sendPause env st).2 ↔ s ∈ services ∧ env.probe s = some true) ∧
      (env.probe s ≠ some true →
        ("Pause", s) ∉ (sendPause env st).2 ∧ s ∉ (pauseLoop env services).1) := by
  intro env st services s hdisc
  have htr : (sendPause env st).2 = (pauseLoop env services).2 := sendPause_snd hdisc
  constructor
  · rw [htr]
    exact pause_trace_mem_iff env services s
  · intro hnp
    constructor
    · rw [htr]
      intro hmem
      exact hnp ((pause_trace_mem_iff env services s).mp hmem).2
    · intro hmem
      exact hnp (mem_pauseLoop_fst hmem).2.1

/-- Witness for C3: the non-playing player b is neither dispatched a Pause
command nor recorded. -/
theorem pause_dispatch_only_playing_witness :
    ("Pause", "org.mpris.MediaPlayer2.b") ∉ (sendPause envMixed []).2 ∧
    "org.mpris.MediaPlayer2.b" ∉
      (pauseLoop envMixed ["org.mpris.MediaPlayer2.a", "org.mpris.MediaPlayer2.b"]).1 :=
  (pause_dispatch_only_playing envMixed []
    ["org.mpris.MediaPlayer2.a", "org.mpris.MediaPlayer2.b"]
    "org.mpris.MediaPlayer2.b" (by decide)).2 (by decide)

/-- C4: the working list recorded by a pause is exactly the discovered
players that probed Playing and whose `Pause` dispatch succeeded (a failed
dispatch excludes that player only), and the dispatch trace covers every
discovered player that probed Playing (no failure short-circuits the rest). -/
theorem pause_partial_dispatch_failure :
    ∀ (env : BusEnv) (st services : List String),
      discoverPlayers env = some services →
      (pauseLoop env services).1 =
        services.filter
          (fun s => decide (env.probe s = some true) && env.dispatch "Pause" s) ∧
      (sendPause env st).2 =
        (services.filter (fun s => decide (env.probe s = some true))).map
          (fun s => ("Pause", s)) := by
  intro env st services hdisc
  exact ⟨pauseLoop_fst env services, by rw [sendPause_snd hdisc, pauseLoop_snd]⟩

/-- Witness for C4: with players a and c both playing and the dispatch to c
failing, the working list keeps a only while both players are dispatched to. -/
theorem pause_partial_dispatch_failure_witness :
    (pauseLoop envPartial ["org.mpris.MediaPlayer2.a", "org.mpris.MediaPlayer2.c"]).1 =
      (["org.mpris.MediaPlayer2.a", "org.mpris.MediaPlayer2.c"].filter
        (fun s => decide (envPartial.probe s = some true) && envPartial.dispatch "Pause" s)) ∧
    (sendPause envPartial []).2 =
      (["org.mpris.MediaPlayer2.a", "org.mpris.MediaPlayer2.c"].filter
        (fun s => decide (envPartial.probe s = some true))).map (fun s => ("Pause", s)) :=
  pause_partial_dispatch_failure envPartial []
    ["org.mpris.MediaPlayer2.a", "org.mpris.MediaPlayer2.c"] (by decide)

/-- C5: after any sequence of public operations starting from the empty
Paused-Set, every member of the Paused-Set was put there by a pause operation
that probed it as Playing and whose `Pause` dispatch to it succeeded, and that
operation actually issued the `Pause` command to it. -/
theorem paused_members_probed_and_dispatched :
    ∀ (evs : List (MediaOp × BusEnv)) (p : String), p ∈ runOps evs [] →
      ∃ env, (MediaOp.pause, env) ∈ evs ∧ env.probe p = some true ∧
        env.dispatch "Pause" p = true ∧ ("Pause", p) ∈ (sendPause env []).2 := by
  intro evs p h
  rcases runOps_mem evs [] p h with h' | ⟨env, services, hmem, hdisc, hp⟩
  · exact absurd h' (List.not_mem_nil p)
  · obtain ⟨hin, hprobe, hdisp⟩ := mem_pauseLoop_fst hp
    refine ⟨env, hmem, hprobe, hdisp, ?_⟩
    rw [sendPause_snd hdisc]
    exact (pause_trace_mem_iff env services p).mpr ⟨hin, hprobe⟩

/-- Witness for C5: after one pause on a bus where spotify is playing, the
recorded player spotify was probed Playing and dispatched to. -/
theorem paused_members_probed_and_dispatched_witness :
    ∃ env, (MediaOp.pause, env) ∈ [(MediaOp.pause, envAllPlaying)] ∧
      env.probe "org.mpris.MediaPlayer2.spotify" = some true ∧
      env.dispatch "Pause" "org.mpris.MediaPlayer2.spotify" = true ∧
      ("Pause", "org.mpris.MediaPlayer2.spotify") ∈ (sendPause env []).2 :=
  paused_members_probed_and_dispatched [(MediaOp.pause, envAllPlaying)]
    "org.mpris.MediaPlayer2.spotify" (by decide)

/-- C8: none of the three public operations propagates an error (each is a
total function into a plain result in this embedding; `send_play_pause`
discards the `Except` of `send_mpris_command`); connection, proxy-creation
and name-listing failures abort `send_pause` and the toggle with the
Paused-Set unchanged and no command dispatched, and `send_play` always
terminates in one of its two normal outcomes. -/
theorem operations_absorb_bus_failures :
    ∀ (env : BusEnv) (st : List String),
      (env.connectOk = false ∨ env.proxyOk = false ∨ env.listNamesOk = false →
        sendPause env st = (st, []) ∧ sendPlayPause env st = (st, [])) ∧
      ((sendPlay env st).1 = [] ∨ (sendPlay env st).1 = st) ∧
      (sendPlayPause env st).1 = st := by
  intro env st
  refine ⟨?_, ?_, rfl⟩
  · intro h
    have hd : discoverPlayers env = none := by
      rcases h with h | h | h
      · simp [discoverPlayers, h]
      · cases hc : env.connectOk <;> simp [discoverPlayers, h, hc]
      · cases hc : env.connectOk <;> cases hp : env.proxyOk <;>
          simp [discoverPlayers, h, hc, hp]
    exact ⟨by simp [sendPause, hd], by simp [sendPlayPause, sendMprisCommand, hd]⟩
  · cases st with
    | nil => exact Or.inr rfl
    | cons p rest => exact Or.inl (by simp [sendPlay])

/-- Witness for C8: with the session connection down, pause and toggle leave
a non-empty Paused-Set untouched and dispatch nothing. -/
theorem operations_absorb_bus_failures_witness :
    sendPause envDown ["org.mpris.MediaPlayer2.spotify"] =
      (["org.mpris.MediaPlayer2.spotify"], []) ∧
    sendPlayPause envDown ["org.mpris.MediaPlayer2.spotify"] =
      (["org.mpris.MediaPlayer2.spotify"], []) :=
  (operations_absorb_bus_failures envDown
    ["org.mpris.MediaPlayer2.spotify"]).1 (Or.inl rfl)

/-- C9: the toggle operation neither reads nor writes the Paused-Set: it
leaves the stored list exactly as it was, and its dispatch behaviour is
independent of the stored list. -/
theorem toggle_preserves_paused_set :
    ∀ (env : BusEnv) (st st' : List String),
      (sendPlayPause env st).1 = st ∧
      (sendPlayPause env st).2 = (sendPlayPause env st').2 :=
  fun _ _ _ => ⟨rfl, rfl⟩

/-- C10: after any sequence of public operations starting from the empty
Paused-Set, every member of the Paused-Set is a service name beginning with
the literal MPRIS namespace, because the only insertion path copies names
from the filtered discovery list. -/
theorem paused_members_have_mpris_namespace :
    ∀ (evs : List (MediaOp × BusEnv)) (p : String), p ∈ runOps evs [] →
      startsWithChars p mprisNamespace = true := by
  intro evs p h
  rcases runOps_mem evs [] p h with h' | ⟨env, services, _, hdisc, hp⟩
  · exact absurd h' (List.not_mem_nil p)
  · obtain ⟨hin, -, -⟩ := mem_pauseLoop_fst hp
    rw [discoverPlayers_eq_some hdisc] at hin
    exact (List.mem_filter.mp hin).2

/-- Witness for C10: the player recorded by a concrete pause carries the
MPRIS namespace. -/
theorem paused_members_have_mpris_namespace_witness :
    startsWithChars "org.mpris.MediaPlayer2.vlc" mprisNamespace = true :=
  paused_members_have_mpris_namespace [(MediaOp.pause, envAllPlaying)]
    "org.mpris.MediaPlayer2.vlc" (by decide)

/-- C7 counterexample: a reply body whose direct string decode succeeds while
the generic value decode fails. The claim's algorithm (direct decode first)
classifies it as Playing, which `is_playing` does; but `is_player_playing`
never attempts the direct decode and propagates a decode error instead. -/
theorem playback_decode_counterexample :
    isPlayingDecode ⟨some "Playing", none⟩ = some true ∧
    isPlayerPlayingDecode ⟨some "Playing", none⟩ = none := by
  exact ⟨by decide, rfl⟩

/-- C7 (amended): `is_playing` attempts the direct string decode first and
falls back to the generic value decode exactly as the claim describes; but
`is_player_playing` decodes the generic value immediately — its result is
independent of the direct string decode — extracting the inner string when
the value's runtime type is string, yielding NotPlaying for any other shape
and an error for a failed value decode. Both compare the decoded string to
the literal "Playing" with a case-sensitive exact match. -/
theorem playback_decode_paths :
    ∀ (body : ReplyBody),
      (∀ s, body.asString = some s → isPlayingDecode body = some (s == "Playing")) ∧
      (body.asString = none → isPlayingDecode body = isPlayerPlayingDecode body) ∧
      (∀ alt, isPlayerPlayingDecode ⟨alt, body.asValue⟩ = isPlayerPlayingDecode body) ∧
      (∀ s, body.asValue = some (ZValue.str s) →
        isPlayerPlayingDecode body = some (s == "Playing")) ∧
      (body.asValue = some ZValue.other → isPlayerPlayingDecode body = some false) ∧
      (body.asValue = none → isPlayerPlayingDecode body = none) := by
  intro body
  obtain ⟨aS, aV⟩ := body
  refine ⟨?_, ?_, ?_, ?_, ?_, ?_⟩
  · intro s h
    cases h
    rfl
  · intro h
    cases h
    cases aV with
    | none => rfl
    | some v => cases v <;> rfl
  · intro alt
    cases aV with
    | none => rfl
    | some v => cases v <;> rfl
  · intro s h
    cases h
    rfl
  · intro h
    cases h
    rfl
  · intro h
    cases h
    rfl

/-- Witness for the amended C7: on a body carrying the string "Paused"
directly and a non-string variant, `is_playing` compares "Paused" to
"Playing" while `is_player_playing` folds the non-string shape to false. -/
theorem playback_decode_paths_witness :
    isPlayingDecode ⟨some "Paused", some ZValue.other⟩ = some ("Paused" == "Playing") ∧
    isPlayerPlayingDecode ⟨some "Paused", some ZValue.other⟩ = some false :=
  ⟨(playback_decode_paths ⟨some "Paused", some ZValue.other⟩).1 "Paused" rfl,
   (playback_decode_paths ⟨some "Paused", some ZValue.other⟩).2.2.2.2.1 rfl⟩

lemma sendMprisCommand_snd_spec {env : BusEnv} {method s0 : String}
    {rest : List String} (h : discoverPlayers env = some (s0 :: rest)) :
    (sendMprisCommand env method).2 =
      (toggleSpecAttempts env method (s0 :: rest)).map (fun s => (method, s)) := by
  simp only [sendMprisCommand, toggleSpecAttempts, h]
  cases hd : env.dispatch method (((s0 :: rest).find? (fun s => probeOrFalse env s)).getD s0)
  · simp only [hd, Bool.false_eq_true, if_false]
    cases hF : (toggleFallback env method
        (((s0 :: rest).find? (fun s => probeOrFalse env s)).getD s0) (s0 :: rest)).2 <;>
      simp [hF, toggleFallback_fst]
  · simp [hd]

lemma sendMprisCommand_error_iff {env : BusEnv} {method s0 : String}
    {rest : List String} (h : discoverPlayers env = some (s0 :: rest)) :
    (sendMprisCommand env method).1 = Except.error () ↔
      ∀ s ∈ s0 :: rest, env.dispatch method s = false := by
  have hPm := preferredOf_mem env s0 rest
  simp only [sendMprisCommand, h]
  cases hd : env.dispatch method (((s0 :: rest).find? (fun s => probeOrFalse env s)).getD s0)
  · simp only [hd, Bool.false_eq_true, if_false]
    cases hF : (toggleFallback env method
        (((s0 :: rest).find? (fun s => probeOrFalse env s)).getD s0) (s0 :: rest)).2 with
    | none =>
      simp only [hF]
      constructor
      · intro _ s hs
        by_cases hsp : s = ((s0 :: rest).find? (fun x => probeOrFalse env x)).getD s0
        · rw [hsp]
          exact hd
        · exact (toggleFallback_none_iff env method _ (s0 :: rest)).mp hF s hs hsp
      · intro _
        trivial
    | some res =>
      simp only [hF]
      constructor
      · intro hc
        exact Except.noConfusion hc
      · intro hall
        obtain ⟨h1, -, h3⟩ := toggleFallback_some hF
        rw [hall res.1 h1] at h3
        exact Bool.noConfusion h3
  · simp only [hd, if_true]
    constructor
    · intro hc
      exact Except.noConfusion hc
    · intro hall
      rw [hall _ hPm] at hd
      exact Bool.noConfusion hd

/-- C6: under successful discovery with at least one player, the toggle's
dispatch-attempt trace is exactly the sequence described by the spec — the
first player probing as Playing (else the first discovered player), then, on
dispatch failure, each remaining discovered player in turn until one
succeeds — and the toggle reports an error exactly when every discovered
player rejects the command. -/
theorem toggle_selection_and_fallback :
    ∀ (env : BusEnv) (st services : List String),
      discoverPlayers env = some services → services ≠ [] →
      (sendPlayPause env st).2 =
        (toggleSpecAttempts env "PlayPause" services).map (fun s => ("PlayPause", s)) ∧
      ((sendMprisCommand env "PlayPause").1 = Except.error () ↔
        ∀ s ∈ services, env.dispatch "PlayPause" s = false) := by
  intro env st services hdisc hne
  obtain ⟨s0, rest, rfl⟩ := List.exists_cons_of_ne_nil hne
  exact ⟨sendMprisCommand_snd_spec hdisc, sendMprisCommand_error_iff hdisc⟩

/-- Witness for C6: on a bus with two playing players the toggle attempt
trace matches the spec sequence and no error is reported. -/
theorem toggle_selection_and_fallback_witness :
    (sendPlayPause envAllPlaying []).2 =
      (toggleSpecAttempts envAllPlaying "PlayPause"
        ["org.mpris.MediaPlayer2.spotify", "org.mpris.MediaPlayer2.vlc"]).map
        (fun s => ("PlayPause", s)) ∧
    ((sendMprisCommand envAllPlaying "PlayPause").1 = Except.error () ↔
      ∀ s ∈ ["org.mpris.MediaPlayer2.spotify", "org.mpris.MediaPlayer2.vlc"],
        envAllPlaying.dispatch "PlayPause" s = false) :=
  toggle_selection_and_fallback envAllPlaying []
    ["org.mpris.MediaPlayer2.spotify", "org.mpris.MediaPlayer2.vlc"]
    (by decide) (by decide)

end MediaControl
